import Mathlib

/-!
Shallow embedding of `src/main.ts` (a Deno/Oak web service with user
registration backed by Deno KV, a landing page listing recent users, and a
health route), together with proofs of the specification claims about it.
-/

namespace Myprodeat

/-- User record stored in Deno KV under key `["users", username]`
(src/main.ts lines 8-12). `createdAt` is a JS `Date`; we model it as
milliseconds since the epoch. The `password` field holds the bcrypt hash,
never the plaintext. -/
structure User where
  username : String
  password : String
  createdAt : Nat
deriving DecidableEq, Repr

/-- The Deno KV store restricted to the `["users", *]` keyspace: an
association list from the username component of the key to the stored
record. The handlers never depend on the store-native enumeration order
(the listing re-sorts), so list order is simply insertion order here. -/
abbrev Store := List (String × User)

/-- Model of `denoKv.get(["users", k])` (src/main.ts line 65): the record currently
stored under the key, if any. -/
def kvGet (s : Store) (k : String) : Option User :=
  match s with
  | [] => none
  | e :: es => if e.1 = k then some e.2 else kvGet es k

/-- The atomic `denoKv.atomic().check({key, versionstamp: null}).set(key,
user).commit()` sequence (src/main.ts lines 78-81): commits, inserting the
record, exactly when the key has never been written — there is no delete
operation, so "versionstamp is null" coincides with absence. Returns the
resulting commit `ok` flag together with the store after the operation. -/
def atomicCreate (s : Store) (k : String) (u : User) : Bool × Store :=
  match kvGet s k with
  | some _ => (false, s)
  | none => (true, s ++ [(k, u)])

/-- JavaScript truthiness of an optional string field of the request body:
`!x` holds exactly for a missing field or the empty string, so `truthy`
is false exactly in the cases rejected by `if (!username || !password)`
(src/main.ts line 56). -/
def truthy : Option String → Bool
  | none => false
  | some s => !(s == "")

/-- JWT header, `{alg: "HS256", typ: "JWT"}` in the source. -/
structure JwtHeader where
  alg : String
  typ : String
deriving DecidableEq, Repr

/-- JWT payload as built by `createJwt` (src/main.ts lines 106-110). -/
structure JwtPayload where
  sub : String
  iat : Nat
  exp : Nat
deriving DecidableEq, Repr

/-- A signed JWT. The HMAC signature computed by the external djwt library
is abstracted by recording the signing secret alongside header and
payload: two tokens agree exactly when all the signing inputs agree. -/
structure Jwt where
  header : JwtHeader
  payload : JwtPayload
  secret : String
deriving DecidableEq, Repr

/-- Embedding of `createJwt` (src/main.ts lines 103-113): an HS256 JWT whose subject is
the username, issued at the current clock reading with expiry 3,600,000 ms
(one hour) later, signed with the configured secret. The two adjacent
`Date.now()` calls in the payload literal read the same request-time
clock `now`. -/
def createJwt (secret : String) (username : String) (now : Nat) : Jwt :=
  { header := { alg := "HS256", typ := "JWT" }
    payload := { sub := username, iat := now, exp := now + 3600000 }
    secret := secret }

/-- Modelled from the spec: the compact serialization returned by the
external djwt `create` call — `base64url(header) "." base64url(payload)
"." signature`, the signature an HMAC-SHA-256 over the first two segments
with the secret. The base64url rendering and the MAC are abstracted as
tagged renderings of their inputs; the three-segment dotted shape is
kept. -/
def encodeJwt (j : Jwt) : String :=
  j.header.alg ++ "+" ++ j.header.typ ++ "." ++
    j.payload.sub ++ "+" ++ toString j.payload.iat ++ "+" ++
    toString j.payload.exp ++ "." ++ "hmacsha256+" ++ j.secret

/-- Modelled from the spec: `hashSync` of the external bcrypt library — a
deterministic-but-salted one-way transform whose output is a bcrypt
format string (a `$2b$` version tag, then cost, salt and digest) and never
the plaintext itself. Cost, salt and digest are abstracted as a tagged
rendering of the plaintext. -/
def hashSync (plaintext : String) : String :=
  "$2b$10$" ++ plaintext

/-- The `user` object of the success body: only the public username
(src/main.ts line 92). -/
structure UserView where
  username : String
deriving DecidableEq, Repr

/-- Success body `{success: true, token, user: {username}}` (src/main.ts
lines 89-93). -/
structure SuccessBody where
  success : Bool
  token : String
  user : UserView
deriving DecidableEq, Repr

/-- Outcome of the register handler: either `ctx.throw(status, message)`
or the JSON success body. -/
inductive RegisterResponse where
  | error (status : Nat) (msg : String)
  | ok (body : SuccessBody)
deriving DecidableEq, Repr

/-- Whether the handler reached the success response. -/
def RegisterResponse.isOk : RegisterResponse → Bool
  | .ok _ => true
  | .error _ _ => false

/-- Whether the response is one of the HTTP 400 validation errors. -/
def RegisterResponse.isValidation : RegisterResponse → Bool
  | .error status _ => status == 400
  | .ok _ => false

/-- The `POST /api/register` handler (src/main.ts lines 51-94), with the
store read at its two access points: `s0` is the store seen by the
advisory pre-check `denoKv.get` (line 65) and `s1` the store at the atomic
commit point (lines 78-81); concurrent requests may commit between the two
reads, and a sequential execution has `s0 = s1`. `hash` is the password
hasher, `secret` the JWT signing secret and `now` the request-time clock.
Returns the response together with the store after the commit point. -/
def registerRacy (hash : String → String) (secret : String) (s0 s1 : Store)
    (username? password? : Option String) (now : Nat) :
    RegisterResponse × Store :=
  if !truthy username? || !truthy password? then
    (.error 400 "用户名和密码不能为空", s1)
  else
    let username := username?.getD ""
    let password := password?.getD ""
    if password.length < 6 then
      (.error 400 "密码至少需要6位", s1)
    else
      match kvGet s0 username with
      | some _ => (.error 409 "用户已存在", s1)
      | none =>
        let user : User :=
          { username := username, password := hash password, createdAt := now }
        let commitResult := atomicCreate s1 username user
        if commitResult.1 then
          (.ok { success := true
                 token := encodeJwt (createJwt secret username now)
                 user := { username := username } }, commitResult.2)
        else
          (.error 500 "用户注册失败", commitResult.2)

/-- The register handler in a sequential execution: nothing commits
between the pre-check and the atomic write, so both read the same
store. -/
def register (hash : String → String) (secret : String) (s : Store)
    (username? password? : Option String) (now : Nat) :
    RegisterResponse × Store :=
  registerRacy hash secret s s username? password? now

/-- The comparator passed to `users.sort` (src/main.ts lines 45-47):
`(a, b) => b.createdAt.getTime() - a.createdAt.getTime()` places `a` no
later than `b` exactly when `b.createdAt ≤ a.createdAt`, i.e. sorts by
`createdAt` descending. -/
def byRecent (a b : User) : Prop := b.createdAt ≤ a.createdAt

instance : DecidableRel byRecent :=
  fun a b => inferInstanceAs (Decidable (b.createdAt ≤ a.createdAt))

instance : IsTotal User byRecent := ⟨fun _ _ => Nat.le_total _ _⟩

instance : IsTrans User byRecent := ⟨fun _ _ _ hab hbc => le_trans hbc hab⟩

/-- The user list of the `GET /` handler (src/main.ts lines 39-47): scan every
record under the `["users"]` prefix, sort by `createdAt` descending —
JavaScript `Array.prototype.sort` is a stable sort, whose output
`insertionSort` reproduces exactly — and keep the first 10. -/
def recentUsers (s : Store) : List User :=
  ((s.map Prod.snd).insertionSort byRecent).take 10

/-- One row of the rendered landing page. -/
structure RenderedUser where
  username : String
  createdAt : Nat
deriving DecidableEq, Repr

/-- Modelled from the spec: the template `views/index.eta` (part of the
repository but not present under src/) renders, for each user handed to
it, only the username and the creation timestamp. -/
def renderUser (u : User) : RenderedUser :=
  { username := u.username, createdAt := u.createdAt }

/-- The `GET /` response (src/main.ts lines 44-49): the rendered rows of
the ten most recent users, plus the render timestamp interpolated into the
page. -/
def indexPage (s : Store) (timestamp : String) : List RenderedUser × String :=
  ((recentUsers s).map renderUser, timestamp)

/-- Comparator `byRecent` transported to rendered rows (it inspects only
`createdAt`, which rendering preserves). -/
def byRecentRow (a b : RenderedUser) : Prop := b.createdAt ≤ a.createdAt

instance : DecidableRel byRecentRow :=
  fun a b => inferInstanceAs (Decidable (b.createdAt ≤ a.createdAt))

/-- Two stores that agree on every key, username and creation timestamp
and may differ arbitrarily in the stored password hashes. -/
def SameShape (s t : Store) : Prop :=
  s.map (fun e => (e.1, e.2.username, e.2.createdAt)) =
    t.map (fun e => (e.1, e.2.username, e.2.createdAt))

/-- Store states reachable from the empty store through register
requests. The advisory pre-check of a step may read any (possibly stale)
snapshot `s0`, modelling requests that interleave between the pre-check
and the commit, but its atomic commit runs against the current store. -/
inductive ReachableStore : Store → Prop
  | init : ReachableStore []
  | step (hash : String → String) (secret : String) (s0 s : Store)
      (username? password? : Option String) (now : Nat) :
      ReachableStore s →
      ReachableStore (registerRacy hash secret s0 s username? password? now).2

/-! ### Basic lemmas about the store -/

theorem kvGet_eq_none_iff (s : Store) (k : String) :
    kvGet s k = none ↔ ∀ e ∈ s, e.1 ≠ k := by
  induction s with
  | nil => simp [kvGet]
  | cons e es ih => by_cases h : e.1 = k <;> simp [kvGet, h, ih]

theorem kvGet_append_self (s : Store) (k : String) (u : User)
    (h : kvGet s k = none) : kvGet (s ++ [(k, u)]) k = some u := by
  induction s with
  | nil => simp [kvGet]
  | cons e es ih =>
      by_cases he : e.1 = k
      · simp [kvGet, he] at h
      · simp only [kvGet, he, if_false, List.cons_append] at h ⊢
        exact ih h

/-! ### Characterization of the register handler

The handler is a cascade of guards; these two lemmas flatten it into one
conditional normal form for the response and one for the resulting store,
from which each claim follows by case analysis. -/

theorem registerRacy_fst (hash : String → String) (secret : String)
    (s0 s1 : Store) (username? password? : Option String) (now : Nat) :
    (registerRacy hash secret s0 s1 username? password? now).1 =
      if !truthy username? || !truthy password? then
        .error 400 "用户名和密码不能为空"
      else if (password?.getD "").length < 6 then
        .error 400 "密码至少需要6位"
      else if (kvGet s0 (username?.getD "")).isSome then
        .error 409 "用户已存在"
      else if (kvGet s1 (username?.getD "")).isSome then
        .error 500 "用户注册失败"
      else
        .ok { success := true
              token := encodeJwt (createJwt secret (username?.getD "") now)
              user := { username := username?.getD "" } } := by
  simp only [registerRacy, atomicCreate]
  split
  · rfl
  · split
    · rfl
    · cases heq : kvGet s0 (username?.getD "") with
      | some v => simp [heq]
      | none => cases hk : kvGet s1 (username?.getD "") <;> simp [heq, hk]

theorem registerRacy_snd (hash : String → String) (secret : String)
    (s0 s1 : Store) (username? password? : Option String) (now : Nat) :
    (registerRacy hash secret s0 s1 username? password? now).2 =
      if (registerRacy hash secret s0 s1 username? password? now).1.isOk then
        s1 ++ [(username?.getD "",
          { username := username?.getD ""
            password := hash (password?.getD "")
            createdAt := now })]
      else s1 := by
  simp only [registerRacy, atomicCreate]
  split
  · simp [RegisterResponse.isOk]
  · split
    · simp [RegisterResponse.isOk]
    · cases heq : kvGet s0 (username?.getD "") with
      | some v => simp [heq, RegisterResponse.isOk]
      | none =>
          cases hk : kvGet s1 (username?.getD "") <;>
            simp [heq, hk, RegisterResponse.isOk]

theorem registerRacy_isOk_iff (hash : String → String) (secret : String)
    (s0 s1 : Store) (username? password? : Option String) (now : Nat) :
    (registerRacy hash secret s0 s1 username? password? now).1.isOk = true ↔
      truthy username? = true ∧ truthy password? = true ∧
        6 ≤ (password?.getD "").length ∧
        kvGet s0 (username?.getD "") = none ∧
        kvGet s1 (username?.getD "") = none := by
  rw [registerRacy_fst]
  by_cases hu : truthy username? = true <;>
    by_cases hp : truthy password? = true <;>
      by_cases hl : (password?.getD "").length < 6 <;>
        by_cases h0 : kvGet s0 (username?.getD "") = none <;>
          by_cases h1 : kvGet s1 (username?.getD "") = none <;>
            simp_all [RegisterResponse.isOk, Option.isSome_iff_ne_none] <;>
              rw [if_neg (show ¬(password?.getD "").length < 6 by omega)]

/-- On the success path (valid input, username free at both read points)
the handler answers with the success body carrying the token and the
public username. -/
theorem registerRacy_ok (hash : String → String) (secret : String)
    (s0 s1 : Store) (u p : String) (now : Nat)
    (hu : u ≠ "") (hp : 6 ≤ p.length)
    (h0 : kvGet s0 u = none) (h1 : kvGet s1 u = none) :
    (registerRacy hash secret s0 s1 (some u) (some p) now).1 =
      .ok { success := true
            token := encodeJwt (createJwt secret u now)
            user := { username := u } } := by
  have hpne : p ≠ "" := by
    intro h
    subst h
    exact absurd hp (by decide)
  have htru : truthy (some u) = true := by simp [truthy, hu]
  have htrp : truthy (some p) = true := by simp [truthy, hpne]
  have hlen : ¬p.length < 6 := by omega
  rw [registerRacy_fst]
  simp [htru, htrp, hlen, h0, h1]

/-- On the success path the handler appends exactly one record, keyed by
the username, holding the hashed password and the creation time. -/
theorem registerRacy_ok_snd (hash : String → String) (secret : String)
    (s0 s1 : Store) (u p : String) (now : Nat)
    (hu : u ≠ "") (hp : 6 ≤ p.length)
    (h0 : kvGet s0 u = none) (h1 : kvGet s1 u = none) :
    (registerRacy hash secret s0 s1 (some u) (some p) now).2 =
      s1 ++ [(u, { username := u, password := hash p, createdAt := now })] := by
  have hok : (registerRacy hash secret s0 s1 (some u) (some p) now).1.isOk
      = true := by
    rw [registerRacy_ok hash secret s0 s1 u p now hu hp h0 h1]
    rfl
  rw [registerRacy_snd, if_pos hok]
  rfl

/-- The serialized token is never the empty string. -/
theorem encodeJwt_ne_empty (j : Jwt) : encodeJwt j ≠ "" := by
  intro h
  have hlen := congrArg String.length h
  have h1 : ("+" : String).length = 1 := rfl
  have h2 : ("." : String).length = 1 := rfl
  have h3 : ("hmacsha256+" : String).length = 11 := rfl
  have h0 : ("" : String).length = 0 := rfl
  simp only [encodeJwt, String.length_append, h1, h2, h3, h0] at hlen
  omega

/-! ### The claims -/

/-- C1: every store state reachable through register requests (with
arbitrarily stale pre-check snapshots) has at most one record per
username, every record being stored under its own username as key: the
only write is the atomic conditional create, which inserts only when the
key is absent and never overwrites or duplicates an existing record. -/
theorem spec2proof_C1 (s : Store) (h : ReachableStore s) :
    (s.map Prod.fst).Nodup ∧ ∀ e ∈ s, e.2.username = e.1 := by
  induction h with
  | init => simp
  | step hash secret s0 s username? password? now _ ih =>
      rw [registerRacy_snd]
      by_cases hok :
          (registerRacy hash secret s0 s username? password? now).1.isOk = true
      · rw [if_pos hok]
        have hfree : kvGet s (username?.getD "") = none :=
          ((registerRacy_isOk_iff hash secret s0 s username? password?
            now).mp hok).2.2.2.2
        have hnotin : ∀ e ∈ s, e.1 ≠ username?.getD "" :=
          (kvGet_eq_none_iff s (username?.getD "")).mp hfree
        constructor
        · simp only [List.map_append, List.map_cons, List.map_nil]
          rw [List.nodup_append]
          refine ⟨ih.1, List.nodup_singleton _, ?_⟩
          intro a ha hb
          simp only [List.mem_singleton] at hb
          subst hb
          obtain ⟨e, he, heq⟩ := List.mem_map.mp ha
          exact hnotin e he heq
        · intro e he
          rcases List.mem_append.mp he with h' | h'
          · exact ih.2 e h'
          · simp only [List.mem_singleton] at h'
            subst h'
            rfl
      · rw [if_neg hok]
        exact ih

/-- Witness for C1 at a concrete reachable store: empty store, then one
registration committed against it. -/
theorem spec2proof_C1_witness :
    (((registerRacy hashSync "super_secret_key_123!" [] []
          (some "alice") (some "hunter2") 1).2.map Prod.fst).Nodup ∧
      ∀ e ∈ (registerRacy hashSync "super_secret_key_123!" [] []
          (some "alice") (some "hunter2") 1).2, e.2.username = e.1) :=
  spec2proof_C1 _
    (ReachableStore.step hashSync "super_secret_key_123!" [] []
      (some "alice") (some "hunter2") 1 ReachableStore.init)

/-- C2: starting from a store where the username is absent, registering a
non-empty username with a password of length at least 6 twice sequentially
succeeds on the first call and returns the HTTP 409 conflict error
"用户已存在" on the second, which finds the record persisted by the
first call. -/
theorem spec2proof_C2 (hash : String → String) (secret : String) (s : Store)
    (u p : String) (now1 now2 : Nat)
    (hu : u ≠ "") (hp : 6 ≤ p.length) (hfree : kvGet s u = none) :
    (register hash secret s (some u) (some p) now1).1.isOk = true ∧
      (register hash secret (register hash secret s (some u) (some p) now1).2
        (some u) (some p) now2).1 = .error 409 "用户已存在" := by
  have hpne : p ≠ "" := by
    intro h
    subst h
    exact absurd hp (by decide)
  have htru : truthy (some u) = true := by simp [truthy, hu]
  have htrp : truthy (some p) = true := by simp [truthy, hpne]
  have hlen : ¬p.length < 6 := by omega
  have hok : (register hash secret s (some u) (some p) now1).1.isOk = true := by
    rw [register, registerRacy_ok hash secret s s u p now1 hu hp hfree hfree]
    rfl
  refine ⟨hok, ?_⟩
  have hstore : (register hash secret s (some u) (some p) now1).2 =
      s ++ [(u, { username := u, password := hash p, createdAt := now1 })] :=
    registerRacy_ok_snd hash secret s s u p now1 hu hp hfree hfree
  have htaken :
      kvGet (register hash secret s (some u) (some p) now1).2 u =
        some { username := u, password := hash p, createdAt := now1 } := by
    rw [hstore]
    exact kvGet_append_self s u _ hfree
  rw [register, registerRacy_fst]
  simp [htru, htrp, hlen, htaken]

/-- Witness for C2: registering alice twice from the empty store. -/
theorem spec2proof_C2_witness :
    (register hashSync "super_secret_key_123!" [] (some "alice")
        (some "hunter2") 1).1.isOk = true ∧
      (register hashSync "super_secret_key_123!"
        (register hashSync "super_secret_key_123!" [] (some "alice")
          (some "hunter2") 1).2
        (some "alice") (some "hunter2") 2).1 = .error 409 "用户已存在" :=
  spec2proof_C2 hashSync "super_secret_key_123!" [] "alice" "hunter2" 1 2
    (by decide) (by decide) rfl

/-- C6: for every username, the issued token is an HS256 JWT signed with
the process-wide secret whose payload has `sub` the username and expiry
exactly one hour — 3,600,000 ms — after its issue time. -/
theorem spec2proof_C6 (secret username : String) (now : Nat) :
    (createJwt secret username now).header.alg = "HS256" ∧
      (createJwt secret username now).header.typ = "JWT" ∧
      (createJwt secret username now).payload.sub = username ∧
      (createJwt secret username now).payload.iat = now ∧
      (createJwt secret username now).payload.exp =
        (createJwt secret username now).payload.iat + 3600000 ∧
      (createJwt secret username now).secret = secret :=
  ⟨rfl, rfl, rfl, rfl, rfl, rfl⟩

/-- C7: on every successful registration the response body is exactly
`{success: true, token, user: {username}}` with a non-empty token, and the
body does not depend on the password: any two valid passwords yield the
identical response. -/
theorem spec2proof_C7 (hash : String → String) (secret : String)
    (s0 s1 : Store) (u p : String) (now : Nat)
    (hu : u ≠ "") (hp : 6 ≤ p.length)
    (h0 : kvGet s0 u = none) (h1 : kvGet s1 u = none) :
    (registerRacy hash secret s0 s1 (some u) (some p) now).1 =
        .ok { success := true
              token := encodeJwt (createJwt secret u now)
              user := { username := u } } ∧
      encodeJwt (createJwt secret u now) ≠ "" ∧
      ∀ p2 : String, 6 ≤ p2.length →
        (registerRacy hash secret s0 s1 (some u) (some p2) now).1 =
          (registerRacy hash secret s0 s1 (some u) (some p) now).1 := by
  refine ⟨registerRacy_ok hash secret s0 s1 u p now hu hp h0 h1,
    encodeJwt_ne_empty _, ?_⟩
  intro p2 hp2
  rw [registerRacy_ok hash secret s0 s1 u p now hu hp h0 h1,
    registerRacy_ok hash secret s0 s1 u p2 now hu hp2 h0 h1]

/-- Witness for C7: registering alice with two different valid
passwords. -/
theorem spec2proof_C7_witness :
    (registerRacy hashSync "super_secret_key_123!" [] [] (some "alice")
          (some "hunter2") 1).1 =
        .ok { success := true
              token := encodeJwt (createJwt "super_secret_key_123!" "alice" 1)
              user := { username := "alice" } } ∧
      encodeJwt (createJwt "super_secret_key_123!" "alice" 1) ≠ "" ∧
      ∀ p2 : String, 6 ≤ p2.length →
        (registerRacy hashSync "super_secret_key_123!" [] [] (some "alice")
            (some p2) 1).1 =
          (registerRacy hashSync "super_secret_key_123!" [] [] (some "alice")
            (some "hunter2") 1).1 :=
  spec2proof_C7 hashSync "super_secret_key_123!" [] [] "alice" "hunter2" 1
    (by decide) (by decide) rfl rfl

/-- C8: the only store effect of the handler is the atomic conditional create:
whenever the response is any error the commit-time store is returned
untouched, and exactly when the response is the success body a single
record — the full user record — has been appended; so a record is written
if and only if registration reports success. -/
theorem spec2proof_C8 (hash : String → String) (secret : String)
    (s0 s1 : Store) (username? password? : Option String) (now : Nat) :
    (registerRacy hash secret s0 s1 username? password? now).2 =
      if (registerRacy hash secret s0 s1 username? password? now).1.isOk then
        s1 ++ [(username?.getD "",
          { username := username?.getD ""
            password := hash (password?.getD "")
            createdAt := now })]
      else s1 :=
  registerRacy_snd hash secret s0 s1 username? password? now

/-- C9: the stored password field of a successfully registered user is the
bcrypt hash of the submitted plaintext and differs from the plaintext
itself. -/
theorem spec2proof_C9 (secret : String) (s : Store) (u p : String)
    (now : Nat) (hu : u ≠ "") (hp : 6 ≤ p.length)
    (hfree : kvGet s u = none) :
    kvGet (register hashSync secret s (some u) (some p) now).2 u =
        some { username := u, password := hashSync p, createdAt := now } ∧
      hashSync p ≠ p := by
  constructor
  · rw [register, registerRacy_ok_snd hashSync secret s s u p now hu hp
      hfree hfree]
    exact kvGet_append_self s u _ hfree
  · intro h
    have hlen := congrArg String.length h
    have h7 : ("$2b$10$" : String).length = 7 := rfl
    simp only [hashSync, String.length_append, h7] at hlen
    omega

/-- Witness for C9: the stored record of alice after registration. -/
theorem spec2proof_C9_witness :
    kvGet (register hashSync "super_secret_key_123!" [] (some "alice")
        (some "hunter2") 1).2 "alice" =
        some { username := "alice", password := hashSync "hunter2"
               createdAt := 1 } ∧
      hashSync "hunter2" ≠ "hunter2" :=
  spec2proof_C9 "super_secret_key_123!" [] "alice" "hunter2" 1
    (by decide) (by decide) rfl

/-- C10: an empty-string password is caught by the presence check, so the
response is the missing-credentials error and never the too-short error;
the too-short error is reachable only for passwords of length 1 to 5. -/
theorem spec2proof_C10 (hash : String → String) (secret : String)
    (s0 s1 : Store) (username? password? : Option String) (now : Nat) :
    (registerRacy hash secret s0 s1 username? (some "") now).1 =
        .error 400 "用户名和密码不能为空" ∧
      ((registerRacy hash secret s0 s1 username? password? now).1 =
          .error 400 "密码至少需要6位" →
        ∃ p, password? = some p ∧ 1 ≤ p.length ∧ p.length < 6) := by
  constructor
  · rw [registerRacy_fst]
    simp [truthy]
  · intro h
    rw [registerRacy_fst] at h
    by_cases hg : (!truthy username? || !truthy password?) = true
    · rw [if_pos hg] at h
      exact absurd h (by decide)
    · rw [if_neg hg] at h
      have htrp : truthy password? = true := by
        cases hq : truthy password? with
        | true => rfl
        | false => exact absurd (by simp [hq]) hg
      obtain ⟨p, rfl⟩ : ∃ p, password? = some p := by
        cases password? with
        | none => exact absurd htrp (by simp [truthy])
        | some p => exact ⟨p, rfl⟩
      have hpne : p ≠ "" := by
        intro hp
        subst hp
        simp [truthy] at htrp
      by_cases hl : ((some p : Option String).getD "").length < 6
      · refine ⟨p, rfl, ?_, by simpa using hl⟩
        have : p.length ≠ 0 := by
          intro h0
          have h0' : p.data.length = 0 := h0
          exact hpne (String.ext (List.length_eq_zero.mp h0'))
        omega
      · rw [if_neg hl] at h
        split at h
        · injection h with h1 h2
          exact absurd h1 (by decide)
        · split at h
          · injection h with h1 h2
            exact absurd h1 (by decide)
          · exact RegisterResponse.noConfusion h

/-- Witness for C10: empty password rejected as missing credentials, and
the too-short error at password "abc" forced into the 1-to-5 band. -/
theorem spec2proof_C10_witness :
    (registerRacy hashSync "super_secret_key_123!" [] [] (some "bob")
        (some "") 3).1 = .error 400 "用户名和密码不能为空" ∧
      ∃ p, (some "abc" : Option String) = some p ∧
        1 ≤ p.length ∧ p.length < 6 :=
  ⟨(spec2proof_C10 hashSync "super_secret_key_123!" [] [] (some "bob")
      (some "abc") 3).1,
   (spec2proof_C10 hashSync "super_secret_key_123!" [] [] (some "bob")
      (some "abc") 3).2 (by decide)⟩

/-- C3: the handler returns an HTTP 400 validation error exactly when the
username or the password is missing/empty or the password is shorter than
6, and in every such case it answers before touching the store: the
response is the same whatever any of the store snapshots contain, and the
store is left unchanged. -/
theorem spec2proof_C3 (hash : String → String) (secret : String)
    (s0 s1 t0 t1 : Store) (username? password? : Option String) (now : Nat) :
    (registerRacy hash secret s0 s1 username? password? now).1.isValidation =
        ((!truthy username? || !truthy password?) ||
          decide ((password?.getD "").length < 6)) ∧
      (((!truthy username? || !truthy password?) ||
          decide ((password?.getD "").length < 6)) = true →
        (registerRacy hash secret s0 s1 username? password? now).1 =
            (registerRacy hash secret t0 t1 username? password? now).1 ∧
          (registerRacy hash secret s0 s1 username? password? now).2 = s1) := by
  by_cases hg : (!truthy username? || !truthy password?) = true
  · have hfst : ∀ a0 a1 : Store,
        (registerRacy hash secret a0 a1 username? password? now).1 =
          .error 400 "用户名和密码不能为空" := by
      intro a0 a1
      rw [registerRacy_fst, if_pos hg]
    have hsnd : (registerRacy hash secret s0 s1 username? password? now).2
        = s1 := by
      simp [registerRacy_snd, hfst s0 s1, RegisterResponse.isOk]
    refine ⟨?_, fun _ => ⟨(hfst s0 s1).trans (hfst t0 t1).symm, hsnd⟩⟩
    rw [hfst s0 s1]
    simp [RegisterResponse.isValidation, hg]
  · have hA : (!truthy username? || !truthy password?) = false := by
      cases h : (!truthy username? || !truthy password?)
      · rfl
      · exact absurd h hg
    by_cases hl : (password?.getD "").length < 6
    · have hfst : ∀ a0 a1 : Store,
          (registerRacy hash secret a0 a1 username? password? now).1 =
            .error 400 "密码至少需要6位" := by
        intro a0 a1
        rw [registerRacy_fst, if_neg hg, if_pos hl]
      have hsnd : (registerRacy hash secret s0 s1 username? password? now).2
          = s1 := by
        simp [registerRacy_snd, hfst s0 s1, RegisterResponse.isOk]
      refine ⟨?_, fun _ => ⟨(hfst s0 s1).trans (hfst t0 t1).symm, hsnd⟩⟩
      rw [hfst s0 s1]
      simp [RegisterResponse.isValidation, hA, hl]
    · refine ⟨?_, fun hv => absurd hv (by simp [hA, hl])⟩
      rw [registerRacy_fst, if_neg hg, if_neg hl]
      cases h0 : kvGet s0 (username?.getD "") <;>
        cases h1 : kvGet s1 (username?.getD "") <;>
          simp [RegisterResponse.isValidation, hA, hl]

/-- Witness for C3: a too-short password answered identically over the
empty store and over a store already holding a user, with no write. -/
theorem spec2proof_C3_witness :
    (registerRacy hashSync "super_secret_key_123!" [] [] (some "bob")
        (some "abc") 7).1 =
        (registerRacy hashSync "super_secret_key_123!"
          [("alice", { username := "alice", password := "h", createdAt := 0 })]
          [("alice", { username := "alice", password := "h", createdAt := 0 })]
          (some "bob") (some "abc") 7).1 ∧
      (registerRacy hashSync "super_secret_key_123!" [] [] (some "bob")
        (some "abc") 7).2 = [] :=
  (spec2proof_C3 hashSync "super_secret_key_123!" [] []
    [("alice", { username := "alice", password := "h", createdAt := 0 })]
    [("alice", { username := "alice", password := "h", createdAt := 0 })]
    (some "bob") (some "abc") 7).2 (by decide)

/-- C4: the listing is the stored users sorted by `createdAt` descending
and truncated to 10: it has length `min n 10`, draws only from the store,
returns every user (as a permutation) when the store holds at most 10, and
under distinct timestamps it is strictly descending and dominates every
user it leaves out. -/
theorem spec2proof_C4 (s : Store) :
    (recentUsers s).length = min (s.map Prod.snd).length 10 ∧
      (∀ x ∈ recentUsers s, x ∈ s.map Prod.snd) ∧
      ((s.map Prod.snd).length ≤ 10 → (recentUsers s).Perm (s.map Prod.snd)) ∧
      (((s.map Prod.snd).map User.createdAt).Nodup →
        (recentUsers s).Pairwise (fun a b => b.createdAt < a.createdAt) ∧
          ∀ y ∈ s.map Prod.snd, y ∉ recentUsers s →
            ∀ x ∈ recentUsers s, y.createdAt < x.createdAt) := by
  have hre : recentUsers s =
      ((s.map Prod.snd).insertionSort byRecent).take 10 := rfl
  have hperm : ((s.map Prod.snd).insertionSort byRecent).Perm
      (s.map Prod.snd) :=
    List.perm_insertionSort byRecent (s.map Prod.snd)
  have hlen : ((s.map Prod.snd).insertionSort byRecent).length
      = (s.map Prod.snd).length := List.length_insertionSort byRecent _
  have hsorted : ((s.map Prod.snd).insertionSort byRecent).Sorted byRecent :=
    List.sorted_insertionSort byRecent (s.map Prod.snd)
  refine ⟨?_, ?_, ?_, ?_⟩
  · rw [hre, List.length_take, hlen, Nat.min_comm]
  · intro x hx
    rw [hre] at hx
    exact hperm.subset (List.take_subset 10 _ hx)
  · intro hle
    rw [hre, List.take_of_length_le (by rw [hlen]; exact hle)]
    exact hperm
  · intro hd
    have hd2 : (((s.map Prod.snd).insertionSort byRecent).map
        User.createdAt).Nodup := (hperm.map User.createdAt).nodup_iff.mpr hd
    have hne : ((s.map Prod.snd).insertionSort byRecent).Pairwise
        (fun a b => a.createdAt ≠ b.createdAt) := List.pairwise_map.mp hd2
    have hstrict : ((s.map Prod.snd).insertionSort byRecent).Pairwise
        (fun a b => b.createdAt < a.createdAt) :=
      (hsorted.and hne).imp fun hab => lt_of_le_of_ne hab.1 hab.2.symm
    constructor
    · rw [hre]
      exact hstrict.sublist (List.take_sublist 10 _)
    · intro y hy hyn x hx
      rw [hre] at hyn hx
      have hysorted : y ∈ (s.map Prod.snd).insertionSort byRecent :=
        hperm.mem_iff.mpr hy
      have hsplit :=
        List.take_append_drop 10 ((s.map Prod.snd).insertionSort byRecent)
      have hstrict2 := hstrict
      rw [← hsplit] at hstrict2
      obtain ⟨-, -, hcross⟩ := List.pairwise_append.mp hstrict2
      have hyd : y ∈ ((s.map Prod.snd).insertionSort byRecent).drop 10 := by
        rw [← hsplit] at hysorted
        rcases List.mem_append.mp hysorted with h | h
        · exact absurd h hyn
        · exact h
      exact hcross x hx y hyd

/-- Witness for C4 on a three-user store with distinct timestamps: the
listing is a permutation of the store and strictly descending. -/
theorem spec2proof_C4_witness :
    (recentUsers
        [("a", { username := "a", password := "h1", createdAt := 1 }),
         ("b", { username := "b", password := "h2", createdAt := 3 }),
         ("c", { username := "c", password := "h3", createdAt := 2 })]).Perm
      (List.map Prod.snd
        [("a", { username := "a", password := "h1", createdAt := 1 }),
         ("b", { username := "b", password := "h2", createdAt := 3 }),
         ("c", { username := "c", password := "h3", createdAt := 2 })]) ∧
      (recentUsers
        [("a", { username := "a", password := "h1", createdAt := 1 }),
         ("b", { username := "b", password := "h2", createdAt := 3 }),
         ("c", { username := "c", password := "h3", createdAt := 2 })]).Pairwise
        (fun a b => b.createdAt < a.createdAt) :=
  ⟨(spec2proof_C4
      [("a", { username := "a", password := "h1", createdAt := 1 }),
       ("b", { username := "b", password := "h2", createdAt := 3 }),
       ("c", { username := "c", password := "h3", createdAt := 2 })]).2.2.1
      (by decide),
   ((spec2proof_C4
      [("a", { username := "a", password := "h1", createdAt := 1 }),
       ("b", { username := "b", password := "h2", createdAt := 3 }),
       ("c", { username := "c", password := "h3", createdAt := 2 })]).2.2.2
      (by decide)).1⟩

/-- C5: the landing page never depends on password hashes: two stores that
agree on keys, usernames and creation timestamps render the identical
page. -/
theorem spec2proof_C5 (s t : Store) (ts : String) (h : SameShape s t) :
    indexPage s ts = indexPage t ts := by
  have key : ∀ u : Store,
      (recentUsers u).map renderUser =
        (((u.map Prod.snd).map renderUser).insertionSort byRecentRow).take 10 := by
    intro u
    rw [recentUsers, List.map_take,
      List.map_insertionSort byRecent byRecentRow renderUser (u.map Prod.snd)
        (fun _ _ _ _ => Iff.rfl)]
  have hmaps : (s.map Prod.snd).map renderUser
      = (t.map Prod.snd).map renderUser := by
    have h1 : ∀ u : Store,
        (u.map Prod.snd).map renderUser =
          (u.map (fun e => (e.1, e.2.username, e.2.createdAt))).map
            (fun tri => { username := tri.2.1, createdAt := tri.2.2 }) := by
      intro u
      simp only [List.map_map]
      rfl
    rw [h1 s, h1 t, h]
  have hrows : (recentUsers s).map renderUser
      = (recentUsers t).map renderUser := by
    rw [key s, key t, hmaps]
  simp only [indexPage, hrows]

/-- Witness for C5: two one-user stores differing only in the stored
hash render the same page. -/
theorem spec2proof_C5_witness :
    indexPage
        [("alice", { username := "alice", password := "x", createdAt := 1 })]
        "now" =
      indexPage
        [("alice", { username := "alice", password := "y", createdAt := 1 })]
        "now" :=
  spec2proof_C5
    [("alice", { username := "alice", password := "x", createdAt := 1 })]
    [("alice", { username := "alice", password := "y", createdAt := 1 })]
    "now" rfl

end Myprodeat
